import Mathlib

/-!
Verification of the bamnostic `bgzf.py` module (BGZF block codec, cursor,
query engine helpers) against its natural-language specification.

The Python source is shallowly embedded: byte streams are `List Nat`
(each element one byte), fallible operations return `Except PyErr`,
and the zlib library (an external collaborator of the module) is
abstracted as a record of pure functions.
-/

set_option maxRecDepth 10000

/-- Python exception kinds raised by the embedded code.  Each constructor
corresponds to a distinct exception class (with a short tag standing in for
the formatted message). -/
inductive PyErr where
  | structError
  | valueError (msg : String)
  | stopIteration
  | runtimeError
  | exception (msg : String)
  | assertionError
  | notImplementedError
  deriving DecidableEq, Repr

/-- Abstraction of the external `zlib` library used by `bgzf.py`:
`compress` models `zlib.compressobj(...).compress(b) + flush()` (raw
DEFLATE, no wrappers), `decompress` models
`zlib.decompressobj(-15).decompress(b) + flush()`, and `crc32` models
`zlib.crc32` (which in Python 3 returns a value in `[0, 2^32)`). -/
structure Zlib where
  compress : List Nat → List Nat
  decompress : List Nat → List Nat
  crc32 : List Nat → Nat

/-- Little-endian encoding of `v` into `w` bytes, as `struct.pack` does
for values that fit (callers model the overflow check separately). -/
def leBytes : Nat → Nat → List Nat
  | 0, _ => []
  | w + 1, v => v % 256 :: leBytes w (v / 256)

/-- Little-endian value of a byte list, as `struct.unpack` computes it. -/
def leVal : List Nat → Nat
  | [] => 0
  | b :: bs => b + 256 * leVal bs

/-- A seekable byte source standing in for the open file object: the file
contents plus the current position. -/
structure Handle where
  file : List Nat
  pos : Nat
  deriving DecidableEq, Repr

/-- Model of `handle.read(n)` for `n ≥ 0`: returns up to `n` bytes from the
current position and advances by the number of bytes actually read. -/
def Handle.read (h : Handle) (n : Nat) : List Nat × Handle :=
  let out := (h.file.drop h.pos).take n
  (out, ⟨h.file, h.pos + out.length⟩)

/-- Model of `handle.read(-1)`: `io.BufferedReader` treats size `-1` as a
request to read the whole remainder of the file (any size below `-1`
instead raises `ValueError`, modelled at the call sites). -/
def Handle.readAll (h : Handle) : List Nat × Handle :=
  let out := h.file.drop h.pos
  (out, ⟨h.file, h.pos + out.length⟩)

/-- Model of `handle.seek(p)` (absolute). -/
def Handle.seek (h : Handle) (p : Nat) : Handle := ⟨h.file, p⟩

/-- The unpacked fields of the 16-byte fixed BGZF metaheader
(`struct.Struct('<4BI2BH2BH')`). -/
structure MetaHeader where
  ID1 : Nat
  ID2 : Nat
  CM : Nat
  FLG : Nat
  MTIME : Nat
  XFL : Nat
  OS : Nat
  XLEN : Nat
  SI1 : Nat
  SI2 : Nat
  SLEN : Nat
  deriving DecidableEq, Repr

/-- Field extraction of `unpack_bgzf_metaheader` on a 16-byte buffer. -/
def parseMetaheader (raw : List Nat) : MetaHeader :=
  { ID1 := raw.getD 0 0
    ID2 := raw.getD 1 0
    CM := raw.getD 2 0
    FLG := raw.getD 3 0
    MTIME := leVal ((raw.drop 4).take 4)
    XFL := raw.getD 8 0
    OS := raw.getD 9 0
    XLEN := leVal ((raw.drop 10).take 2)
    SI1 := raw.getD 12 0
    SI2 := raw.getD 13 0
    SLEN := leVal ((raw.drop 14).take 2) }

/-- Embedding of `_bgzf_metaheader(handle)`: read 16 bytes (a short read
makes `struct.unpack` raise `struct.error`), unpack, and check the seven
fixed field values, raising `ValueError('Malformed BGZF block')` on any
mismatch.  Note that at end of file the 16-byte read returns an empty
buffer and the unpack raises `struct.error`; no `StopIteration` is ever
raised here. -/
def bgzfMetaheader (h : Handle) : Except PyErr (MetaHeader × List Nat × Handle) :=
  let r := h.read 16
  if r.1.length = 16 then
    let m := parseMetaheader r.1
    if m.ID1 = 31 ∧ m.ID2 = 139 ∧ m.CM = 8 ∧ m.FLG = 4 ∧ m.SI1 = 66 ∧ m.SI2 = 67 ∧ m.SLEN = 2 then
      .ok (m, r.1, r.2)
    else
      .error (.valueError "Malformed BGZF block")
  else
    .error .structError

/-- Embedding of `_load_bgzf_block(handle)`: parse the metaheader, read
`BSIZE`, read `d_size = BSIZE - XLEN - 19` bytes of compressed data, then
inflate, then read and verify the trailing `CRC32` and `ISIZE`.  The
negative `d_size` is passed straight to `handle.read`, an
`io.BufferedReader` method for which size `-1` reads the whole remainder
while any size below `-1` raises `ValueError` with the message
`read length must be non-negative or -1`.  Returns `(BSIZE + 1, data)`
and the advanced handle.  The source's `if deflated_crc < 0`
normalization is dead for Python 3 `crc32` values, which are already in
`[0, 2^32)`. -/
def loadBgzfBlock (z : Zlib) (h : Handle) : Except PyErr ((Nat × List Nat) × Handle) :=
  match bgzfMetaheader h with
  | .error e => .error e
  | .ok (meta, _, h1) =>
    let rb := h1.read 2
    if rb.1.length = 2 then
      let BSIZE := leVal rb.1
      let dSize : Int := (BSIZE : Int) - (meta.XLEN : Int) - 19
      if dSize < -1 then
        .error (.valueError "read length must be non-negative or -1")
      else
        let rc := if dSize = -1 then rb.2.readAll else rb.2.read dSize.toNat
        let data := z.decompress rc.1
        let rt := rc.2.read 8
        if rt.1.length = 8 then
          let CRC32 := leVal (rt.1.take 4)
          let ISIZE := leVal (rt.1.drop 4)
          if CRC32 ≠ z.crc32 data then
            .error (.valueError "CRCs are not equal")
          else if ISIZE ≠ data.length then
            .error (.valueError "unequal uncompressed data size")
          else
            .ok ((BSIZE + 1, data), rt.2)
        else
          .error .structError
    else
      .error .structError

/-- The module constant `_bgzf_header`: the 16-byte fixed header emitted by
the writer (`MTIME = 0`, `XFL = 0`, `OS = 0xff`, `XLEN = 6`, subfield
`BC` of length 2). -/
def bgzfHeaderBytes : List Nat :=
  [0x1f, 0x8b, 0x08, 0x04, 0x00, 0x00, 0x00, 0x00, 0x00, 0xff, 0x06, 0x00, 0x42, 0x43, 0x02, 0x00]

/-- The module constant `_bgzf_eof`: the fixed 28-byte EOF marker block. -/
def bgzfEofBytes : List Nat :=
  [0x1f, 0x8b, 0x08, 0x04, 0x00, 0x00, 0x00, 0x00, 0x00, 0xff, 0x06, 0x00, 0x42, 0x43,
   0x02, 0x00, 0x1b, 0x00, 0x03, 0x00, 0x00, 0x00, 0x00, 0x00, 0x00, 0x00, 0x00, 0x00]

/-- Embedding of `BgzfWriter._write_block(block)`: assert the block is at
most 65536 bytes, deflate it, assert the compressed stream is under 65536
bytes, then emit the fixed header, `BSIZE = len(compressed) + 25` packed as
`<H` (which raises `struct.error` when the value does not fit in 16 bits),
the compressed stream, `CRC32(block) & 0xffffffff`, and `ISIZE =
len(block)`, all little-endian. -/
def writeBlock (z : Zlib) (block : List Nat) : Except PyErr (List Nat) :=
  if block.length ≤ 65536 then
    let compressed := z.compress block
    if compressed.length < 65536 then
      if compressed.length + 25 < 65536 then
        .ok (bgzfHeaderBytes ++ leBytes 2 (compressed.length + 25) ++ compressed ++
             leBytes 4 (z.crc32 block % 4294967296) ++ leBytes 4 block.length)
      else
        .error .structError
    else
      .error .assertionError
  else
    .error .assertionError

/-- The exact byte layout produced by `_write_block` around a compressed
payload `comp` with trailer bytes `c4` (CRC32) and `i4` (ISIZE). -/
def framedBlock (comp c4 i4 : List Nat) : List Nat :=
  bgzfHeaderBytes ++ leBytes 2 (comp.length + 25) ++ comp ++ c4 ++ i4

/-- Abstract view of one aligned record as the query engine consumes it:
`bgzf.py` touches only `reference_name`, `pos` and `flag`. -/
structure AlignedSegment where
  reference_name : String
  pos : Nat
  flag : Nat
  deriving DecidableEq, Repr

/-- Embedding of the yield loop of `BgzfReader.fetch` with `until_eof`
off (body of the `while boundary_check` loop, lines 926-946): each record
obtained from `next(self)` has its bounds checked, which may clear
`boundary_check`, but the record is then yielded unconditionally (`if
next_read: yield next_read`; `next` only returns truthy records) before the
loop condition is re-tested.  The input list is the stream of records from
the seek position onward; the result is the list of yielded records. -/
def fetchLoop (contig : String) (start stop : Nat) : List AlignedSegment → List AlignedSegment
  | [] => []
  | r :: rs =>
    let boundary := r.reference_name = contig ∧ ¬(start < stop ∧ stop < r.pos)
    r :: (if boundary then fetchLoop contig start stop rs else [])

/-- The `read_callback` argument of `BgzfReader.count`: either a string tag
or a callable predicate. -/
inductive ReadCallback where
  | tag (s : String)
  | func (f : AlignedSegment → Bool)

/-- Embedding of the counting loop of `BgzfReader.count` (lines 1032-1046):
fold over the records yielded by the region query; `'nofilter'` counts
every record, `'all'` counts records with no flag bit in `0x704`, a
callable filters by its result, and anything else raises `RuntimeError` —
inside the loop body, hence only when a record is processed. -/
def countLoop : List AlignedSegment → ReadCallback → Nat → Except PyErr Nat
  | [], _, acc => .ok acc
  | r :: rs, cb, acc =>
    match cb with
    | .tag s =>
      if s = "nofilter" then
        countLoop rs (.tag s) (acc + 1)
      else if s = "all" then
        countLoop rs (.tag s) (if r.flag &&& 0x704 = 0 then acc + 1 else acc)
      else
        .error .runtimeError
    | .func f => countLoop rs (.func f) (if f r then acc + 1 else acc)

/-- Embedding of `BgzfReader.count` given the records its region query
yields: the loop starts from `count = 0`. -/
def countReads (records : List AlignedSegment) (cb : ReadCallback) : Except PyErr Nat :=
  countLoop records cb 0

/-- Per-reference statistics record of the index (`n_mapped`,
`n_unmapped`), as read by `get_index_stats` from `self._index.unmapped`. -/
structure RefStats where
  n_mapped : Nat
  n_unmapped : Nat
  deriving DecidableEq, Repr

/-- Embedding of `BgzfReader.get_index_stats` (lines 1076-1086) for a
reader whose index is loaded: for each reference id in header order, look
it up in the index's per-reference statistics dictionary; a `KeyError`
(absent key, modelled by `none`) is caught and `(0, 0, 0)` appended
instead. -/
def get_index_stats (n_refs : Nat) (unmapped : Nat → Option RefStats) : List (Nat × Nat × Nat) :=
  (List.range n_refs).map fun r =>
    match unmapped r with
    | some s => (s.n_mapped, s.n_unmapped, s.n_mapped + s.n_unmapped)
    | none => (0, 0, 0)

/-- A trivial zlib backend instantiation used for concrete evaluations:
the identity as raw DEFLATE and a constant CRC. -/
def zlibId : Zlib :=
  { compress := fun x => x
    decompress := fun x => x
    crc32 := fun _ => 7 }

/-- A zlib backend whose `decompress` returns the empty payload (the real
zlib answer for the EOF marker body) and whose CRC of the empty payload is
0, matching the marker's stored CRC. -/
def zlibEmpty : Zlib :=
  { compress := fun _ => []
    decompress := fun _ => []
    crc32 := fun _ => 0 }

/-- Modelled from the spec: the `LruDict` bounded LRU cache imported from
`bamnostic.utils` (whose source is not included); per spec section 4.3 it is
a mapping from physical offsets to `(payload, raw_length)` with
most-recently-used promotion on every get and put, and eviction of the
least-recently-used entry when a put exceeds the fixed capacity.  Entries
are kept most-recent first. -/
structure LruDict where
  maxCache : Nat
  entries : List (Nat × (List Nat × Nat))
  deriving DecidableEq, Repr

/-- Raw lookup of a key (no recency change). -/
def LruDict.lookup (d : LruDict) (k : Nat) : Option (List Nat × Nat) :=
  (d.entries.find? fun e => e.1 == k).map (·.2)

/-- Modelled from the spec: membership test (`k in d`). -/
def LruDict.contains (d : LruDict) (k : Nat) : Bool :=
  (d.lookup k).isSome

/-- Modelled from the spec: `d[k]` on a hit promotes the key to
most-recently-used and returns its value. -/
def LruDict.get (d : LruDict) (k : Nat) : Option (List Nat × Nat) × LruDict :=
  match d.lookup k with
  | none => (none, d)
  | some v => (some v, ⟨d.maxCache, (k, v) :: d.entries.filter fun e => !(e.1 == k)⟩)

/-- Modelled from the spec: `d[k] = v` updates and promotes a present key,
otherwise inserts it most-recently-used and evicts the least-recently-used
entry if the capacity is exceeded. -/
def LruDict.put (d : LruDict) (k : Nat) (v : List Nat × Nat) : LruDict :=
  if (d.lookup k).isSome then
    ⟨d.maxCache, (k, v) :: d.entries.filter fun e => !(e.1 == k)⟩
  else
    let es := (k, v) :: d.entries
    ⟨d.maxCache, if es.length > d.maxCache then es.dropLast else es⟩

/-- The cursor state of `BgzfReader`: the open handle, the loaded block's
start offset, raw compressed length and decompressed payload, the offset
within that payload, and the block cache. -/
structure Cursor where
  handle : Handle
  blockStartOffset : Nat
  blockRawLength : Nat
  buffer : List Nat
  withinBlockOffset : Nat
  buffers : LruDict
  deriving DecidableEq, Repr

/-- Embedding of `BgzfReader._load_block(start_offset)` (lines 483-527):
`none` means sequential advance to `block_start_offset + block_raw_length`.
If the target is the current block, only rewind `within_block_offset`; on a
cache hit install the cached payload; otherwise seek the handle, decode a
block, and install it in the cache.  The `except StopIteration` branch sets
an empty buffer with raw length 0; any other exception from the codec
propagates. -/
def loadBlock (z : Zlib) (c : Cursor) (startOffset : Option Nat) : Except PyErr Cursor :=
  let so := startOffset.getD (c.blockStartOffset + c.blockRawLength)
  if so = c.blockStartOffset then
    .ok { c with withinBlockOffset := 0 }
  else
    match c.buffers.get so with
    | (some (buf, rawLen), bufs) =>
      .ok { c with buffer := buf, blockRawLength := rawLen, withinBlockOffset := 0,
                   blockStartOffset := so, buffers := bufs }
    | (none, _) =>
      let h := c.handle.seek so
      match loadBgzfBlock z h with
      | .ok ((blockSize, buf), h2) =>
        .ok { handle := h2, blockStartOffset := so, blockRawLength := blockSize,
              buffer := buf, withinBlockOffset := 0,
              buffers := c.buffers.put so (buf, blockSize) }
      | .error .stopIteration =>
        .ok { handle := h, blockStartOffset := so, blockRawLength := 0,
              buffer := [], withinBlockOffset := 0,
              buffers := c.buffers.put so ([], 0) }
      | .error e => .error e

/-- Modelled from the spec: `make_virtual_offset(coffset, uoffset)` from
`bamnostic.utils` (whose source is not included); per spec section 4.1 it
rejects `uoffset ≥ 2^16` and `coffset ≥ 2^48` with a domain error and
otherwise returns `coffset << 16 | uoffset`. -/
def make_virtual_offset (coffset uoffset : Nat) : Except PyErr Nat :=
  if uoffset ≥ 65536 then
    .error (.valueError "uoffset out of range")
  else if coffset ≥ 281474976710656 then
    .error (.valueError "coffset out of range")
  else
    .ok ((coffset <<< 16) ||| uoffset)

/-- Embedding of `BgzfReader.tell` (lines 672-675). -/
def Cursor.tell (c : Cursor) : Except PyErr Nat :=
  make_virtual_offset c.blockStartOffset c.withinBlockOffset

/-- Embedding of `BgzfReader.seek(virtual_offset)` (lines 709-724): split
the virtual offset inline (`start_offset = vo >> 16`, `within_block = vo ^
(start_offset << 16)`), load the target block if it is not the current one
and assert the load landed on it, reject a within-block offset beyond the
payload length (`ValueError`) except in the degenerate empty-block case,
then set the within-block offset and echo the virtual offset. -/
def Cursor.seek (z : Zlib) (c : Cursor) (vo : Nat) : Except PyErr (Cursor × Nat) :=
  let startOffset := vo >>> 16
  let withinBlock := vo ^^^ (startOffset <<< 16)
  match (if startOffset ≠ c.blockStartOffset then loadBlock z c (some startOffset) else .ok c) with
  | .error e => .error e
  | .ok c1 =>
    if startOffset ≠ c1.blockStartOffset then
      .error .assertionError
    else if withinBlock > c1.buffer.length ∧ ¬(withinBlock = 0 ∧ c1.buffer.length = 0) then
      .error (.valueError "Within offset larger than block size")
    else
      .ok ({ c1 with withinBlockOffset := withinBlock }, vo)

/-- Recursion core of `BgzfReader.read(size)` (lines 726-774), with a fuel
argument standing in for Python's unbounded recursion (the wrapper supplies
`size + 2`, which bounds the actual recursion depth: every recursive call
after the first strictly decreases `size`). -/
def readAux (z : Zlib) : Nat → Cursor → Nat → Except PyErr (List Nat × Cursor)
  | 0, _, _ => .error (.exception "model recursion fuel exhausted")
  | fuel + 1, c, size =>
    if size = 0 then
      .ok ([], c)
    else if c.withinBlockOffset + size ≤ c.buffer.length then
      let data := (c.buffer.drop c.withinBlockOffset).take size
      if data.isEmpty then
        .error .assertionError
      else
        .ok (data, { c with withinBlockOffset := c.withinBlockOffset + size })
    else
      let data := c.buffer.drop c.withinBlockOffset
      let size2 := size - data.length
      match loadBlock z c none with
      | .error e => .error e
      | .ok c2 =>
        if c2.buffer.isEmpty then
          .ok (data, c2)
        else if size2 ≠ 0 then
          match readAux z fuel c2 size2 with
          | .error e => .error e
          | .ok (rest, c3) => .ok (data ++ rest, c3)
        else
          .ok (data, c2)

/-- Embedding of `BgzfReader.read(size)` for `size ≥ 0` (a negative size
raises `NotImplementedError` before any of this logic runs). -/
def Cursor.read (z : Zlib) (c : Cursor) (size : Nat) : Except PyErr (List Nat × Cursor) :=
  readAux z (size + 2) c size

/-- Embedding of `BgzfReader._check_truncation` (lines 639-660): seek to 28
bytes before the end, read them, and compare with the EOF marker; returns
`True` (truncated) when they differ.  The source constructs
`warnings.BytesWarning(...)` in that branch but never raises or emits it,
so the check has no warning side effect. -/
def checkTruncation (file : List Nat) : Bool :=
  decide (file.drop (file.length - 28) ≠ bgzfEofBytes)

/-- Embedding of the truncation gate in `BgzfReader.__init__` (lines
450-453): unless `ignore_truncation` is set, a truncated file makes
construction raise `Exception('BAM file may be truncated...')`. -/
def truncationGate (ignoreTruncation : Bool) (file : List Nat) : Except PyErr Unit :=
  if !ignoreTruncation then
    if checkTruncation file then
      .error (.exception "BAM file may be truncated")
    else
      .ok ()
  else
    .ok ()

/-- The byte stream `_write_block` emits for payload `[1, 2, 3]` under the
identity compression backend: `BSIZE = 3 + 25 = 28`, `CRC32 = 7`,
`ISIZE = 3`. -/
def c3DemoOut : List Nat :=
  bgzfHeaderBytes ++ [28, 0] ++ [1, 2, 3] ++ [7, 0, 0, 0] ++ [3, 0, 0, 0]

/-- A cursor holding a loaded block at offset 0 whose payload is 38 bytes
long (the block-size situation of the spec's seek scenario). -/
def cursor38 : Cursor :=
  { handle := ⟨[], 0⟩
    blockStartOffset := 0
    blockRawLength := 0
    buffer := List.replicate 38 0
    withinBlockOffset := 0
    buffers := ⟨128, []⟩ }

/-- A cursor that has loaded the final block of a 28-byte file consisting
of exactly the EOF marker block: the marker's payload is empty, its raw
length is 28, and the handle sits at the end of the file. -/
def eofCursor : Cursor :=
  { handle := ⟨bgzfEofBytes, 28⟩
    blockStartOffset := 0
    blockRawLength := 28
    buffer := []
    withinBlockOffset := 0
    buffers := ⟨128, [(0, ([], 28))]⟩ }

-- Theorems start here.

/-- Length of a little-endian packing. -/
theorem leBytes_length (w v : Nat) : (leBytes w v).length = w := by
  induction w generalizing v with
  | zero => rfl
  | succ w ih => simp [leBytes, ih]

/-- Unpacking a packed little-endian value recovers it when it fits. -/
theorem leVal_leBytes (w v : Nat) (h : v < 256 ^ w) : leVal (leBytes w v) = v := by
  induction w generalizing v with
  | zero =>
    have hv : v = 0 := by simpa using h
    simp [leBytes, leVal, hv]
  | succ w ih =>
    have hd : v / 256 < 256 ^ w := by
      rw [Nat.div_lt_iff_lt_mul (by norm_num : 0 < 256)]
      calc v < 256 ^ (w + 1) := h
        _ = 256 ^ w * 256 := by rw [Nat.pow_succ]
    simp only [leBytes, leVal, ih (v / 256) hd]
    omega

/-- Reading from a handle positioned at the boundary between `pre` and
`mid` returns a prefix of `mid` and advances the position. -/
theorem read_at (file pre mid : List Nat) (n p : Nat)
    (hsplit : file = pre ++ mid) (hp : p = pre.length) (hn : n ≤ mid.length) :
    Handle.read ⟨file, p⟩ n = (mid.take n, ⟨file, p + n⟩) := by
  subst hsplit hp
  simp only [Handle.read, List.drop_left]
  rw [List.length_take]
  congr 2
  omega

/-- The low 16 bits that `seek` computes by `vo ^ ((vo >> 16) << 16)` are
exactly `vo mod 2^16`. -/
theorem xor_high_eq_mod (n : Nat) : n ^^^ ((n >>> 16) <<< 16) = n % 65536 := by
  apply Nat.eq_of_testBit_eq
  intro i
  rw [Nat.testBit_xor, Nat.testBit_shiftLeft, Nat.testBit_shiftRight,
    show (65536 : Nat) = 2 ^ 16 from rfl, Nat.testBit_mod_two_pow]
  rcases Nat.lt_or_ge i 16 with h | h
  · have h1 : decide (i ≥ 16) = false := by simp; omega
    have h2 : decide (i < 16) = true := by simp [h]
    rw [h1, h2]
    cases n.testBit i <;> rfl
  · have h1 : decide (i ≥ 16) = true := by simp [h]
    have h2 : decide (i < 16) = false := by simp; omega
    have h3 : 16 + (i - 16) = i := by omega
    rw [h1, h2, h3]
    cases n.testBit i <;> rfl

/-- Recomposing the high 48 bits and the low 16 bits of a virtual offset
recovers it. -/
theorem or_reconstruct (n : Nat) : ((n >>> 16) <<< 16) ||| (n % 65536) = n := by
  apply Nat.eq_of_testBit_eq
  intro i
  rw [Nat.testBit_or, Nat.testBit_shiftLeft, Nat.testBit_shiftRight,
    show (65536 : Nat) = 2 ^ 16 from rfl, Nat.testBit_mod_two_pow]
  rcases Nat.lt_or_ge i 16 with h | h
  · have h1 : decide (i ≥ 16) = false := by simp; omega
    have h2 : decide (i < 16) = true := by simp [h]
    rw [h1, h2]
    cases n.testBit i <;> rfl
  · have h1 : decide (i ≥ 16) = true := by simp [h]
    have h2 : decide (i < 16) = false := by simp; omega
    have h3 : 16 + (i - 16) = i := by omega
    rw [h1, h2, h3]
    cases n.testBit i <;> rfl

/-- The compressed offset of a 64-bit virtual offset fits in 48 bits. -/
theorem shiftr16_lt (n : Nat) (h : n < 18446744073709551616) :
    n >>> 16 < 281474976710656 := by
  rw [Nat.shiftRight_eq_div_pow]
  omega

/-- Decoding a stream that carries one exactly framed block reduces to the
CRC32 and ISIZE comparisons of the decoder. -/
theorem loadBgzfBlock_framed (z : Zlib) (comp c4 i4 : List Nat)
    (hc4 : c4.length = 4) (hi4 : i4.length = 4)
    (hcl : comp.length + 25 < 65536) :
    loadBgzfBlock z ⟨framedBlock comp c4 i4, 0⟩ =
      (if leVal c4 ≠ z.crc32 (z.decompress comp) then
        .error (.valueError "CRCs are not equal")
       else if leVal i4 ≠ (z.decompress comp).length then
        .error (.valueError "unequal uncompressed data size")
       else
        .ok ((comp.length + 26, z.decompress comp),
             ⟨framedBlock comp c4 i4, comp.length + 26⟩)) := by
  have hhdr : bgzfHeaderBytes.length = 16 := rfl
  have hassoc : framedBlock comp c4 i4 =
      bgzfHeaderBytes ++ (leBytes 2 (comp.length + 25) ++ (comp ++ (c4 ++ i4))) := by
    simp [framedBlock, List.append_assoc]
  have hlen2 : (leBytes 2 (comp.length + 25)).length = 2 := leBytes_length 2 _
  have hbsize : leVal (leBytes 2 (comp.length + 25)) = comp.length + 25 :=
    leVal_leBytes 2 _ (by norm_num; omega)
  have h1 : Handle.read ⟨framedBlock comp c4 i4, 0⟩ 16 =
      (bgzfHeaderBytes, ⟨framedBlock comp c4 i4, 16⟩) := by
    have h := read_at (framedBlock comp c4 i4) []
      (bgzfHeaderBytes ++ (leBytes 2 (comp.length + 25) ++ (comp ++ (c4 ++ i4)))) 16 0
      (by simpa using hassoc) rfl
      (by simp only [List.length_append, hlen2, hhdr, hc4, hi4]; try omega)
    rw [h]
    rw [List.take_left' hhdr]
  have h2 : Handle.read ⟨framedBlock comp c4 i4, 16⟩ 2 =
      (leBytes 2 (comp.length + 25), ⟨framedBlock comp c4 i4, 18⟩) := by
    have h := read_at (framedBlock comp c4 i4) bgzfHeaderBytes
      (leBytes 2 (comp.length + 25) ++ (comp ++ (c4 ++ i4))) 2 16
      hassoc hhdr.symm
      (by simp only [List.length_append, hlen2]; try omega)
    rw [h]
    rw [List.take_left' hlen2]
  have h3 : Handle.read ⟨framedBlock comp c4 i4, 18⟩ comp.length =
      (comp, ⟨framedBlock comp c4 i4, 18 + comp.length⟩) := by
    have h := read_at (framedBlock comp c4 i4)
      (bgzfHeaderBytes ++ leBytes 2 (comp.length + 25)) (comp ++ (c4 ++ i4)) comp.length 18
      (by rw [hassoc]; simp [List.append_assoc])
      (by simp only [List.length_append, hlen2, hhdr])
      (by simp only [List.length_append]; try omega)
    rw [h]
    rw [List.take_left' rfl]
  have h4 : Handle.read ⟨framedBlock comp c4 i4, 18 + comp.length⟩ 8 =
      (c4 ++ i4, ⟨framedBlock comp c4 i4, 26 + comp.length⟩) := by
    have h := read_at (framedBlock comp c4 i4)
      ((bgzfHeaderBytes ++ leBytes 2 (comp.length + 25)) ++ comp) (c4 ++ i4) 8
      (18 + comp.length)
      (by rw [hassoc]; simp [List.append_assoc])
      (by simp only [List.length_append, hlen2, hhdr]; try omega)
      (by simp only [List.length_append, hc4, hi4]; try omega)
    rw [h]
    rw [List.take_of_length_le (by simp only [List.length_append, hc4, hi4]; try omega)]
    rw [show 18 + comp.length + 8 = 26 + comp.length from by omega]
  have hmeta : bgzfMetaheader ⟨framedBlock comp c4 i4, 0⟩ =
      .ok (parseMetaheader bgzfHeaderBytes, bgzfHeaderBytes, ⟨framedBlock comp c4 i4, 16⟩) := by
    unfold bgzfMetaheader
    simp only [h1]
    rfl
  have hxlen : (parseMetaheader bgzfHeaderBytes).XLEN = 6 := rfl
  unfold loadBgzfBlock
  rw [hmeta]
  simp only [h2, hlen2, reduceIte]
  split
  case isTrue hneg =>
    exfalso
    rw [hbsize, hxlen] at hneg
    push_cast at hneg
    omega
  case isFalse hpos =>
    split
    case isTrue hm1 =>
      exfalso
      rw [hbsize, hxlen] at hm1
      push_cast at hm1
      omega
    case isFalse hm1 =>
      have htoNat : ((leVal (leBytes 2 (comp.length + 25)) : Int) -
          ((parseMetaheader bgzfHeaderBytes).XLEN : Int) - 19).toNat = comp.length := by
        rw [hbsize, hxlen]
        omega
      rw [htoNat, h3]
      simp only [h4, List.length_append, hc4, hi4, List.take_left' hc4, List.drop_left' hc4, hbsize]
      norm_num
      rw [show 26 + comp.length = comp.length + 26 from by omega]

/-- C1: the claim states that `fetch` (with `until_eof` off) never yields a
record whose reference does not match the queried contig or whose position
exceeds `stop`.  The code violates this: the bounds checks clear
`boundary_check`, but the offending record is still yielded before the loop
condition is re-tested.  Both the wrong-reference case and the
past-`stop` case yield the violating record. -/
theorem c1_fetch_yields_boundary_record :
    fetchLoop "chr1" 1 100 [⟨"chr2", 5, 0⟩] = [⟨"chr2", 5, 0⟩] ∧
    ("chr2" : String) ≠ "chr1" ∧
    fetchLoop "chr1" 1 100 [⟨"chr1", 150, 0⟩] = [⟨"chr1", 150, 0⟩] ∧
    (150 : Nat) > 100 := by
  refine ⟨rfl, by decide, rfl, by decide⟩

/-- C9: `get_index_stats` returns exactly one tuple per reference in header
order, and a reference id absent from the index's per-reference statistics
contributes `(0, 0, 0)` at its position instead of an error. -/
theorem c9_get_index_stats_spec :
    (∀ (n : Nat) (f : Nat → Option RefStats), (get_index_stats n f).length = n) ∧
    (∀ (n : Nat) (f : Nat → Option RefStats) (r : Nat), r < n → f r = none →
      (get_index_stats n f).get? r = some (0, 0, 0)) := by
  constructor
  · intro n f
    simp [get_index_stats]
  · intro n f r hr hf
    simp only [get_index_stats, List.get?_eq_getElem?, List.getElem?_map]
    rw [List.getElem?_range hr]
    simp [hf]

/-- C9 witness: a two-reference header with an index carrying statistics
for neither reference. -/
theorem c9_get_index_stats_spec_witness :
    (get_index_stats 2 (fun _ => none)).length = 2 ∧
    (get_index_stats 2 (fun _ => none)).get? 1 = some (0, 0, 0) :=
  ⟨c9_get_index_stats_spec.1 2 (fun _ => none),
   c9_get_index_stats_spec.2 2 (fun _ => none) 1 (by decide) rfl⟩

/-- C10: when the region query yields no records, `count` returns 0 for
every `read_callback` value, including an unrecognized string tag; the
`RuntimeError` for an invalid `read_callback` is raised only upon
processing the first yielded record. -/
theorem c10_count_callback :
    (∀ cb : ReadCallback, countReads [] cb = .ok 0) ∧
    (∀ (s : String) (r : AlignedSegment) (rs : List AlignedSegment),
      s ≠ "nofilter" → s ≠ "all" →
      countReads (r :: rs) (.tag s) = .error .runtimeError) := by
  constructor
  · intro cb
    cases cb <;> rfl
  · intro s r rs h1 h2
    simp [countReads, countLoop, h1, h2]

/-- C10 witness: an unrecognized tag with an empty result set counts 0; the
same tag errors as soon as one record is processed. -/
theorem c10_count_callback_witness :
    countReads [] (.tag "bogus") = .ok 0 ∧
    countReads [⟨"chr1", 5, 0⟩] (.tag "bogus") = .error .runtimeError :=
  ⟨c10_count_callback.1 (.tag "bogus"),
   c10_count_callback.2 "bogus" ⟨"chr1", 5, 0⟩ [] (by decide) (by decide)⟩

/-- C3: for every payload of at most 65536 bytes that the writer accepts,
decoding the block produced by encoding it returns the payload, and the
raw block length reported by the decoder (`BSIZE + 1`) equals the number of
bytes the encoder emitted.  The zlib backend is abstract, constrained by
its library contract: raw inflate inverts raw deflate, and `crc32` returns
a 32-bit value. -/
theorem c3_decode_encode_roundtrip (z : Zlib) (P out : List Nat)
    (hrt : z.decompress (z.compress P) = P)
    (hcrc : z.crc32 P < 4294967296)
    (henc : writeBlock z P = .ok out) :
    loadBgzfBlock z ⟨out, 0⟩ = .ok ((out.length, P), ⟨out, out.length⟩) := by
  simp only [writeBlock] at henc
  split at henc
  case isFalse => cases henc
  case isTrue hP =>
    split at henc
    case isFalse => cases henc
    case isTrue hcomp =>
      split at henc
      case isFalse => cases henc
      case isTrue hcl =>
        have hout : out = framedBlock (z.compress P)
            (leBytes 4 (z.crc32 P % 4294967296)) (leBytes 4 P.length) := by
          cases henc
          rfl
        have hc4 : (leBytes 4 (z.crc32 P % 4294967296)).length = 4 := leBytes_length 4 _
        have hi4 : (leBytes 4 P.length).length = 4 := leBytes_length 4 _
        have hcrcval : leVal (leBytes 4 (z.crc32 P % 4294967296)) = z.crc32 P := by
          rw [Nat.mod_eq_of_lt hcrc]
          exact leVal_leBytes 4 _ (by norm_num; omega)
        have hisize : leVal (leBytes 4 P.length) = P.length :=
          leVal_leBytes 4 _ (by norm_num; omega)
        rw [hout, loadBgzfBlock_framed z _ _ _ hc4 hi4 hcl]
        rw [if_neg (by rw [hcrcval, hrt]; exact not_not_intro rfl)]
        rw [if_neg (by rw [hisize, hrt]; exact not_not_intro rfl)]
        rw [hrt]
        rw [show (framedBlock (z.compress P) (leBytes 4 (z.crc32 P % 4294967296))
              (leBytes 4 P.length)).length = (z.compress P).length + 26 from by
          simp only [framedBlock, List.length_append, leBytes_length]
          rw [show bgzfHeaderBytes.length = 16 from rfl]
          omega]

/-- C3 witness: the payload `[1, 2, 3]` under an identity deflate backend
with CRC 7 encodes to a 29-byte block that decodes back to `[1, 2, 3]`
reporting raw length 29. -/
theorem c3_decode_encode_roundtrip_witness :
    loadBgzfBlock zlibId ⟨c3DemoOut, 0⟩ =
      .ok ((c3DemoOut.length, [1, 2, 3]), ⟨c3DemoOut, c3DemoOut.length⟩) :=
  c3_decode_encode_roundtrip zlibId [1, 2, 3] c3DemoOut rfl (by decide) rfl

/-- C7: decoding an exactly framed block raises a fatal error when the
stored CRC32 differs from the CRC32 of the inflated payload, raises a
fatal error when the stored ISIZE differs from the inflated payload
length (CRC32 being checked first), and returns `(BSIZE + 1, payload)`
when both match. -/
theorem c7_integrity_checks (z : Zlib) (comp c4 i4 : List Nat)
    (hc4 : c4.length = 4) (hi4 : i4.length = 4)
    (hcl : comp.length + 25 < 65536) :
    (leVal c4 ≠ z.crc32 (z.decompress comp) →
      loadBgzfBlock z ⟨framedBlock comp c4 i4, 0⟩ =
        .error (.valueError "CRCs are not equal")) ∧
    (leVal c4 = z.crc32 (z.decompress comp) → leVal i4 ≠ (z.decompress comp).length →
      loadBgzfBlock z ⟨framedBlock comp c4 i4, 0⟩ =
        .error (.valueError "unequal uncompressed data size")) ∧
    (leVal c4 = z.crc32 (z.decompress comp) → leVal i4 = (z.decompress comp).length →
      loadBgzfBlock z ⟨framedBlock comp c4 i4, 0⟩ =
        .ok ((comp.length + 26, z.decompress comp),
             ⟨framedBlock comp c4 i4, comp.length + 26⟩)) := by
  refine ⟨?_, ?_, ?_⟩
  · intro hne
    rw [loadBgzfBlock_framed z comp c4 i4 hc4 hi4 hcl, if_pos hne]
  · intro heq hne
    rw [loadBgzfBlock_framed z comp c4 i4 hc4 hi4 hcl,
      if_neg (not_not_intro heq), if_pos hne]
  · intro heq1 heq2
    rw [loadBgzfBlock_framed z comp c4 i4 hc4 hi4 hcl,
      if_neg (not_not_intro heq1), if_neg (not_not_intro heq2)]

/-- C7 witness: under an identity inflate backend with CRC constantly 7,
the one-byte payload `[7]` decodes successfully with a matching trailer,
errors on a wrong stored CRC32, and errors on a wrong stored ISIZE. -/
theorem c7_integrity_checks_witness :
    loadBgzfBlock zlibId ⟨framedBlock [7] [4, 0, 0, 0] [1, 0, 0, 0], 0⟩ =
      .error (.valueError "CRCs are not equal") ∧
    loadBgzfBlock zlibId ⟨framedBlock [7] [7, 0, 0, 0] [9, 0, 0, 0], 0⟩ =
      .error (.valueError "unequal uncompressed data size") ∧
    loadBgzfBlock zlibId ⟨framedBlock [7] [7, 0, 0, 0] [1, 0, 0, 0], 0⟩ =
      .ok ((27, [7]), ⟨framedBlock [7] [7, 0, 0, 0] [1, 0, 0, 0], 27⟩) :=
  ⟨(c7_integrity_checks zlibId [7] [4, 0, 0, 0] [1, 0, 0, 0] rfl rfl (by decide)).1
      (by decide),
   (c7_integrity_checks zlibId [7] [7, 0, 0, 0] [9, 0, 0, 0] rfl rfl (by decide)).2.1
      (by decide) (by decide),
   (c7_integrity_checks zlibId [7] [7, 0, 0, 0] [1, 0, 0, 0] rfl rfl (by decide)).2.2
      (by decide) (by decide)⟩

/-- C5 counterexample: a block whose header is valid but whose `BSIZE`
field is 24 gives a derived compressed length `d = 24 - 6 - 19 = -1`; the
claim says decoding fails with a malformed-block error without inflating,
but `handle.read(-1)` returns the whole remainder of the source, the
decoder inflates it, and then fails with `struct.error` when the 8-byte
trailer read comes back empty — not with the malformed-block error. -/
theorem c5_negative_dsize_counterexample :
    loadBgzfBlock zlibId ⟨bgzfHeaderBytes ++ ([24, 0] ++ [9, 9, 9]), 0⟩ =
      .error .structError ∧
    (Except.error .structError :
        Except PyErr ((Nat × List Nat) × Handle)) ≠
      .error (.valueError "Malformed BGZF block") := by
  exact ⟨rfl, by simp⟩

/-- C5 amended: the decoder performs no non-negativity check on the
derived compressed length `d = BSIZE - XLEN - 19`; the negative value is
passed straight to the buffered read.  For every stream whose 16-byte
header is the standard one (`XLEN = 6`): when `BSIZE < 24` (so `d ≤ -2`)
the read call itself raises `ValueError` with the io message
`read length must be non-negative or -1` before any inflation, and when
`BSIZE = 24` (so `d = -1`) the read returns the entire remainder of the
source, the decoder inflates it, and then fails with a `struct.error`
from unpacking the 8-byte trailer out of the exhausted source.  In
neither case is the malformed-block error raised. -/
theorem c5_negative_dsize_no_check (z : Zlib) (b0 b1 : Nat) (rest : List Nat) :
    (b0 + 256 * b1 < 24 →
      loadBgzfBlock z ⟨bgzfHeaderBytes ++ ([b0, b1] ++ rest), 0⟩ =
        .error (.valueError "read length must be non-negative or -1")) ∧
    (b0 + 256 * b1 = 24 →
      loadBgzfBlock z ⟨bgzfHeaderBytes ++ ([b0, b1] ++ rest), 0⟩ =
        .error .structError) := by
  have hhdr : bgzfHeaderBytes.length = 16 := rfl
  have h1 : Handle.read ⟨bgzfHeaderBytes ++ ([b0, b1] ++ rest), 0⟩ 16 =
      (bgzfHeaderBytes, ⟨bgzfHeaderBytes ++ ([b0, b1] ++ rest), 16⟩) := by
    have h := read_at (bgzfHeaderBytes ++ ([b0, b1] ++ rest)) []
      (bgzfHeaderBytes ++ ([b0, b1] ++ rest)) 16 0 (by simp) rfl
      (by simp only [List.length_append, List.length_cons, List.length_nil, hhdr]; omega)
    rw [h]
    rw [List.take_left' hhdr]
  have hmeta : bgzfMetaheader ⟨bgzfHeaderBytes ++ ([b0, b1] ++ rest), 0⟩ =
      .ok (parseMetaheader bgzfHeaderBytes, bgzfHeaderBytes,
           ⟨bgzfHeaderBytes ++ ([b0, b1] ++ rest), 16⟩) := by
    unfold bgzfMetaheader
    simp only [h1]
    rfl
  have h2 : Handle.read ⟨bgzfHeaderBytes ++ ([b0, b1] ++ rest), 16⟩ 2 =
      ([b0, b1], ⟨bgzfHeaderBytes ++ ([b0, b1] ++ rest), 18⟩) := by
    have h := read_at (bgzfHeaderBytes ++ ([b0, b1] ++ rest)) bgzfHeaderBytes
      ([b0, b1] ++ rest) 2 16 rfl hhdr.symm
      (by simp only [List.length_append, List.length_cons, List.length_nil]; omega)
    rw [h]
    rw [List.take_left' (show ([b0, b1] : List Nat).length = 2 from rfl)]
  have hxlen : (parseMetaheader bgzfHeaderBytes).XLEN = 6 := rfl
  have hbs : leVal [b0, b1] = b0 + 256 * b1 := by
    simp [leVal]
  constructor
  · intro hlt
    unfold loadBgzfBlock
    rw [hmeta]
    simp only [h2, List.length_cons, List.length_nil, reduceIte]
    split
    case isTrue hneg => rfl
    case isFalse hpos =>
      exfalso
      rw [hbs, hxlen] at hpos
      push_cast at hpos
      omega
  · intro heq24
    unfold loadBgzfBlock
    rw [hmeta]
    simp only [h2, List.length_cons, List.length_nil, reduceIte]
    split
    case isTrue hneg =>
      exfalso
      rw [hbs, hxlen] at hneg
      push_cast at hneg
      omega
    case isFalse hpos =>
      split
      case isFalse hm1 =>
        exfalso
        rw [hbs, hxlen] at hm1
        push_cast at hm1
        omega
      case isTrue hm1 =>
        have hall : Handle.readAll ⟨bgzfHeaderBytes ++ ([b0, b1] ++ rest), 18⟩ =
            (rest, ⟨bgzfHeaderBytes ++ ([b0, b1] ++ rest), 18 + rest.length⟩) := by
          unfold Handle.readAll
          rw [show bgzfHeaderBytes ++ ([b0, b1] ++ rest) =
                (bgzfHeaderBytes ++ [b0, b1]) ++ rest from by simp [List.append_assoc]]
          rw [List.drop_left' (by simp [hhdr])]
        rw [hall]
        have hread8 : Handle.read ⟨bgzfHeaderBytes ++ ([b0, b1] ++ rest), 18 + rest.length⟩ 8 =
            ([], ⟨bgzfHeaderBytes ++ ([b0, b1] ++ rest), 18 + rest.length⟩) := by
          unfold Handle.read
          rw [show 18 + rest.length = (bgzfHeaderBytes ++ ([b0, b1] ++ rest)).length from by
            simp only [List.length_append, List.length_cons, List.length_nil, hhdr]; omega]
          rw [List.drop_length]
          rfl
        rw [hread8]
        rfl

/-- C5 witness for the amended claim: with `BSIZE = 0` (`d = -25`) the
read call raises the io `ValueError`; with `BSIZE = 24` (`d = -1`) the
decoder consumes the remainder and fails at the trailer. -/
theorem c5_negative_dsize_no_check_witness :
    loadBgzfBlock zlibEmpty ⟨bgzfHeaderBytes ++ ([0, 0] ++ [5, 5, 5]), 0⟩ =
      .error (.valueError "read length must be non-negative or -1") ∧
    loadBgzfBlock zlibEmpty ⟨bgzfHeaderBytes ++ ([24, 0] ++ [5, 5, 5]), 0⟩ =
      .error .structError :=
  ⟨(c5_negative_dsize_no_check zlibEmpty 0 0 [5, 5, 5]).1 (by decide),
   (c5_negative_dsize_no_check zlibEmpty 24 0 [5, 5, 5]).2 (by decide)⟩

/-- C4: for every virtual offset for which `seek` returns normally, an
immediately following `tell` returns exactly that virtual offset.  The
offset is bounded by 2^64 as virtual offsets are 64-bit composites, so
that its compressed part fits the 48-bit domain of
`make_virtual_offset`. -/
theorem c4_seek_then_tell (z : Zlib) (c : Cursor) (vo : Nat) (out : Cursor × Nat)
    (hvo : vo < 18446744073709551616)
    (hseek : Cursor.seek z c vo = .ok out) :
    Cursor.tell out.1 = .ok vo := by
  simp only [Cursor.seek] at hseek
  split at hseek
  case h_1 e heq => cases hseek
  case h_2 c1 heq =>
    split at hseek
    case isTrue => cases hseek
    case isFalse h1 =>
      split at hseek
      case isTrue => cases hseek
      case isFalse h2 =>
        cases hseek
        have hbs : vo >>> 16 = c1.blockStartOffset := not_not.mp h1
        simp only [Cursor.tell, make_virtual_offset, xor_high_eq_mod]
        rw [← hbs]
        have hlow : ¬(vo % 65536 ≥ 65536) := by
          have := Nat.mod_lt vo (show 0 < 65536 by norm_num)
          omega
        have hhigh : ¬(vo >>> 16 ≥ 281474976710656) := by
          have := shiftr16_lt vo hvo
          omega
        rw [if_neg hlow, if_neg hhigh, or_reconstruct]

/-- C4 witness: seeking to virtual offset 10 inside the loaded 38-byte
block at compressed offset 0 succeeds, and `tell` then returns 10. -/
theorem c4_seek_then_tell_witness :
    Cursor.tell { cursor38 with withinBlockOffset := 10 } = .ok 10 :=
  c4_seek_then_tell zlibId cursor38 10 ({ cursor38 with withinBlockOffset := 10 }, 10)
    (by decide) rfl

/-- C6: a `seek` whose target block is the loaded one and whose split
uoffset exceeds the payload length raises the domain error
(`ValueError`); the degenerate exemption `u = 0` with an empty payload
never satisfies `u > len(payload)`, so no successful case is excluded. -/
theorem c6_seek_uoffset_bound (z : Zlib) (c : Cursor) (vo : Nat)
    (hbs : vo >>> 16 = c.blockStartOffset)
    (hgt : vo % 65536 > c.buffer.length) :
    Cursor.seek z c vo = .error (.valueError "Within offset larger than block size") := by
  simp only [Cursor.seek]
  rw [if_neg (not_not_intro hbs)]
  split
  case h_1 e heq => cases heq
  case h_2 c1 heq =>
    cases heq
    rw [if_neg (not_not_intro hbs)]
    simp only [xor_high_eq_mod]
    rw [if_pos ⟨hgt, by omega⟩]

/-- C6 witness: the spec scenario `seek(make(0, 42))` against block 0 with
payload length 38 — `make_virtual_offset` accepts the pair and `seek`
raises the domain error. -/
theorem c6_seek_uoffset_bound_witness :
    make_virtual_offset 0 42 = .ok 42 ∧
    Cursor.seek zlibId cursor38 42 =
      .error (.valueError "Within offset larger than block size") :=
  ⟨rfl, c6_seek_uoffset_bound zlibId cursor38 42 (by decide) (by decide)⟩

/-- C2: the claim states that loading past the last block enters an EOF
state with an empty payload and that every following `read(n > 0)` returns
the empty byte string.  The code violates this: with the cursor on the
final (EOF marker) block of a 28-byte file, loading the following block
propagates `struct.error` (from unpacking an empty 16-byte header read)
and `read(1)` raises the same error instead of returning the empty
buffer.  The `except StopIteration` EOF handler in `_load_block` is dead:
the block codec can never raise `StopIteration`. -/
theorem c2_read_past_eof_struct_error :
    loadBlock zlibEmpty eofCursor none = .error .structError ∧
    Cursor.read zlibEmpty eofCursor 1 = .error .structError ∧
    ∀ (z : Zlib) (h : Handle), loadBgzfBlock z h ≠ .error .stopIteration := by
  refine ⟨rfl, rfl, ?_⟩
  intro z h hcontra
  unfold loadBgzfBlock at hcontra
  split at hcontra
  case h_1 e heq =>
    injection hcontra with he
    subst he
    unfold bgzfMetaheader at heq
    simp only [] at heq
    split at heq
    · split at heq
      · cases heq
      · simp at heq
    · simp at heq
  case h_2 val heq =>
    simp only [] at hcontra
    repeat
      first
      | simp at hcontra
      | split at hcontra

/-- C8 counterexample: a 28-byte file of zero bytes lacks the EOF marker;
the claim states that construction with default options completes with
only a warning, but the default (`ignore_truncation = False`) makes the
constructor raise, so construction does not complete. -/
theorem c8_missing_eof_default_fatal_counterexample :
    truncationGate false (List.replicate 28 0) =
      .error (.exception "BAM file may be truncated") := rfl

/-- C8 amended: for every file whose final 28 bytes are not the EOF
marker, opening with default options (`ignore_truncation = False`) is
fatal — construction raises a truncation exception; construction completes
only when `ignore_truncation` is enabled at open, in which case the check
is skipped entirely (and the `BytesWarning` the check would report is
constructed but never emitted). -/
theorem c8_missing_eof_marker_gate (file : List Nat)
    (hm : file.drop (file.length - 28) ≠ bgzfEofBytes) :
    truncationGate false file = .error (.exception "BAM file may be truncated") ∧
    truncationGate true file = .ok () := by
  constructor
  · simp [truncationGate, checkTruncation, hm]
  · rfl

/-- C8 witness for the amended claim: a 28-byte file of ones. -/
theorem c8_missing_eof_marker_gate_witness :
    truncationGate false (List.replicate 28 1) =
      .error (.exception "BAM file may be truncated") ∧
    truncationGate true (List.replicate 28 1) = .ok () :=
  c8_missing_eof_marker_gate (List.replicate 28 1) (by decide)
